import Mathlib

set_option maxRecDepth 4000

namespace ChargerBridge

/-! # Shallow embedding of the Charger Telemetry Bridge

Embeds the Electron main process (main/main.js), the preload bridge and the
renderer logic (electron-app/renderer/src/App.jsx) that the claims are about:

* a model of `JSON.parse` (JavaScript's JSON decoder, the platform function
  both decode boundaries in main.js call);
* the `get-charger-data` close handler (whole-output mode decode of the
  one-shot snapshot producer) and the renderer's `fetchData`;
* the `start-monitoring` stdout handler (streaming mode) and the renderer's
  `handleChargerData` registry upsert;
* a state machine for the main process globals (`pythonProcess`) driven by
  the IPC and process-exit events;
* the renderer's `statusIcons` lookup.
-/

/-- JSON values, the results of `JSON.parse`.  A number is kept in exact
scaled-decimal form, `mantissa * 10 ^ exp10`, read directly off the digits
(JavaScript uses binary floating point; none of the verified properties
compares decoded numbers, so the exact form is harmless).  Object fields
keep their textual order; duplicate keys are kept and the last occurrence
wins on access, as in JavaScript. -/
inductive Json where
  | null : Json
  | bool : Bool → Json
  | num (mantissa : Int) (exp10 : Int) : Json
  | str : String → Json
  | arr : List Json → Json
  | obj : List (String × Json) → Json

/-- A JavaScript value as seen by the renderer: `none` models `undefined`,
`some v` a defined JSON value. -/
abbrev JsVal := Option Json

/-! ## JSON.parse model -/

/-- JSON whitespace (space, tab, line feed, carriage return). -/
def isJsonWs (c : Char) : Bool :=
  c = ' ' ∨ c = '\t' ∨ c = '\n' ∨ c = '\r'

/-- Drop leading JSON whitespace. -/
def skipWs : List Char → List Char
  | c :: cs => if isJsonWs c then skipWs cs else c :: cs
  | [] => []

/-- Value of a hexadecimal digit. -/
def hexDigitVal (c : Char) : Option Nat :=
  if '0' ≤ c ∧ c ≤ '9' then some (c.toNat - 48)
  else if 'a' ≤ c ∧ c ≤ 'f' then some (c.toNat - 87)
  else if 'A' ≤ c ∧ c ≤ 'F' then some (c.toNat - 55)
  else none

/-- Read exactly four hexadecimal digits (the payload of a \u escape). -/
def parseHex4 : List Char → Option (Nat × List Char)
  | a :: b :: c :: d :: rest => do
    let va ← hexDigitVal a
    let vb ← hexDigitVal b
    let vc ← hexDigitVal c
    let vd ← hexDigitVal d
    pure (((va * 16 + vb) * 16 + vc) * 16 + vd, rest)
  | _ => none

/-- Body of a JSON string after the opening quote: stops at the closing
quote, decodes escapes, rejects raw control characters.  Lone-surrogate
\u escapes degrade to the default character (JavaScript strings would keep
them; no verified property inspects such strings).  Fuel bounds recursion;
one unit is spent per consumed character, so fuel = remaining length + 1
always suffices. -/
def parseStringBody (fuel : Nat) (cs : List Char) (acc : List Char) :
    Option (String × List Char) :=
  match fuel with
  | 0 => none
  | f + 1 =>
    match cs with
    | [] => none
    | c :: rest =>
      if c = '"' then some (String.mk acc.reverse, rest)
      else if c = '\\' then
        match rest with
        | '"' :: r => parseStringBody f r ('"' :: acc)
        | '\\' :: r => parseStringBody f r ('\\' :: acc)
        | '/' :: r => parseStringBody f r ('/' :: acc)
        | 'b' :: r => parseStringBody f r (Char.ofNat 8 :: acc)
        | 'f' :: r => parseStringBody f r (Char.ofNat 12 :: acc)
        | 'n' :: r => parseStringBody f r ('\n' :: acc)
        | 'r' :: r => parseStringBody f r ('\r' :: acc)
        | 't' :: r => parseStringBody f r ('\t' :: acc)
        | 'u' :: r =>
          match parseHex4 r with
          | some (n, r2) => parseStringBody f r2 (Char.ofNat n :: acc)
          | none => none
        | _ => none
      else if c.toNat < 32 then none
      else parseStringBody f rest (c :: acc)

/-- Numeric value of a digit string. -/
def digitsToNat (ds : List Char) : Nat :=
  ds.foldl (fun a c => a * 10 + (c.toNat - 48)) 0

/-- Fraction and exponent part of a JSON number, given sign and integer
digits.  A dot or exponent marker that is not followed by digits is left
unconsumed, so the overall parse fails on the leftover character exactly
where JavaScript's parser reports a syntax error. -/
def finishNumber (neg : Bool) (intDigits : List Char) (cs : List Char) :
    Option (Json × List Char) :=
  let fracSplit : List Char × List Char :=
    match cs with
    | '.' :: r =>
      let fs := r.takeWhile Char.isDigit
      if fs.isEmpty then ([], cs) else (fs, r.dropWhile Char.isDigit)
    | _ => ([], cs)
  let fracDigits := fracSplit.1
  let cs2 := fracSplit.2
  let expSplit : Int × List Char :=
    match cs2 with
    | e :: r =>
      if e = 'e' ∨ e = 'E' then
        match r with
        | '+' :: r2 =>
          let es := r2.takeWhile Char.isDigit
          if es.isEmpty then (0, cs2)
          else ((digitsToNat es : Int), r2.dropWhile Char.isDigit)
        | '-' :: r2 =>
          let es := r2.takeWhile Char.isDigit
          if es.isEmpty then (0, cs2)
          else (-(digitsToNat es : Int), r2.dropWhile Char.isDigit)
        | _ =>
          let es := r.takeWhile Char.isDigit
          if es.isEmpty then (0, cs2)
          else ((digitsToNat es : Int), r.dropWhile Char.isDigit)
      else (0, cs2)
    | [] => (0, cs2)
  let expVal := expSplit.1
  let cs3 := expSplit.2
  let mantissa : Int := (digitsToNat (intDigits ++ fracDigits) : Int)
  some (Json.num (if neg then -mantissa else mantissa)
    (expVal - (fracDigits.length : Int)), cs3)

/-- A JSON number: optional minus, then `0` or a nonzero digit followed by
digits (so `01` is rejected, as in JavaScript), then fraction/exponent. -/
def parseNumber (cs : List Char) : Option (Json × List Char) :=
  let signSplit : Bool × List Char :=
    match cs with
    | '-' :: r => (true, r)
    | _ => (false, cs)
  let neg := signSplit.1
  let cs1 := signSplit.2
  match cs1 with
  | [] => none
  | c :: rest =>
    if c = '0' then finishNumber neg [c] rest
    else if c.isDigit then
      finishNumber neg (c :: rest.takeWhile Char.isDigit)
        (rest.dropWhile Char.isDigit)
    else none

mutual

/-- One JSON value.  Fuel bounds the mutual recursion; every two units of
fuel consume at least one input character, so 2·length + 2 suffices. -/
def parseValue (fuel : Nat) (cs : List Char) : Option (Json × List Char) :=
  match fuel with
  | 0 => none
  | f + 1 =>
    match skipWs cs with
    | 'n' :: 'u' :: 'l' :: 'l' :: rest => some (Json.null, rest)
    | 't' :: 'r' :: 'u' :: 'e' :: rest => some (Json.bool true, rest)
    | 'f' :: 'a' :: 'l' :: 's' :: 'e' :: rest => some (Json.bool false, rest)
    | '"' :: rest =>
      match parseStringBody (rest.length + 1) rest [] with
      | some (s, r) => some (Json.str s, r)
      | none => none
    | '[' :: rest =>
      (match skipWs rest with
       | ']' :: r => some (Json.arr [], r)
       | _ => parseElems f rest [])
    | '\x7b' :: rest =>
      (match skipWs rest with
       | '\x7d' :: r => some (Json.obj [], r)
       | _ => parseMembers f rest [])
    | c :: rest =>
      if c = '-' ∨ c.isDigit then parseNumber (c :: rest) else none
    | [] => none

/-- Comma-separated array elements up to the closing bracket. -/
def parseElems (fuel : Nat) (cs : List Char) (acc : List Json) :
    Option (Json × List Char) :=
  match fuel with
  | 0 => none
  | f + 1 =>
    match parseValue f cs with
    | none => none
    | some (v, r) =>
      match skipWs r with
      | ',' :: r2 => parseElems f r2 (v :: acc)
      | ']' :: r2 => some (Json.arr (v :: acc).reverse, r2)
      | _ => none

/-- Comma-separated object members up to the closing brace. -/
def parseMembers (fuel : Nat) (cs : List Char) (acc : List (String × Json)) :
    Option (Json × List Char) :=
  match fuel with
  | 0 => none
  | f + 1 =>
    match skipWs cs with
    | '"' :: r =>
      (match parseStringBody (r.length + 1) r [] with
       | none => none
       | some (k, r1) =>
         match skipWs r1 with
         | ':' :: r2 =>
           (match parseValue f r2 with
            | none => none
            | some (v, r3) =>
              match skipWs r3 with
              | ',' :: r4 => parseMembers f r4 ((k, v) :: acc)
              | '\x7d' :: r4 => some (Json.obj ((k, v) :: acc).reverse, r4)
              | _ => none)
         | _ => none)
    | _ => none

end

/-- The platform decoder `JSON.parse`: one value, then only whitespace may
remain.  `none` models a thrown SyntaxError. -/
def jsonParse (s : String) : Option Json :=
  match parseValue (2 * s.length + 2) s.data with
  | some (v, rest) => if (skipWs rest).isEmpty then some v else none
  | none => none

/-! ## JavaScript value semantics used by the renderer -/

/-- The last binding of a key in an object's field list (later duplicate
keys shadow earlier ones, as after `JSON.parse`). -/
def lookupField (fields : List (String × Json)) (k : String) : JsVal :=
  (fields.reverse.find? (fun p => p.1 = k)).map (fun p => p.2)

/-- JavaScript property access `o.k`.  On `undefined` or `null` it throws a
TypeError (modelled as `Except.error`); on an object it yields the field or
`undefined`; on any other primitive it yields `undefined`.  Own properties
only (no prototype chain). -/
def propGet : JsVal → String → Except Unit JsVal
  | none, _ => .error ()
  | some Json.null, _ => .error ()
  | some (Json.obj fields), k => .ok (lookupField fields k)
  | some _, _ => .ok none

/-- The pure value of `o.k` at the points where access cannot throw. -/
def propGetD : JsVal → String → JsVal
  | some (Json.obj fields), k => lookupField fields k
  | _, _ => none

/-- `v` is neither `undefined` nor `null`, i.e. property access on it
cannot throw. -/
def accessible : JsVal → Bool
  | none => false
  | some Json.null => false
  | some _ => true

/-- JavaScript strict equality `===` on primitive values; `none = none`
models `undefined === undefined` (true).  Two object or array values are
compared as distinct references (false): every comparison the renderer
performs is between freshly parsed values, which are never the same
reference. -/
def jsStrictEq : JsVal → JsVal → Bool
  | none, none => true
  | some Json.null, some Json.null => true
  | some (Json.bool a), some (Json.bool b) => decide (a = b)
  | some (Json.num a ae), some (Json.num b be) => decide (a = b) && decide (ae = be)
  | some (Json.str a), some (Json.str b) => decide (a = b)
  | _, _ => false

/-- `Array.prototype.findIndex` with a callback that may throw: the first
index whose callback returns true, `none` for the source's -1.  The
callback runs left to right and a throw aborts the search, as in
JavaScript. -/
def findIndexM (p : JsVal → Except Unit Bool) :
    List JsVal → Except Unit (Option Nat)
  | [] => pure none
  | c :: cs => do
    if (← p c) then pure (some 0)
    else do
      let r ← findIndexM p cs
      pure (r.map (· + 1))

/-! ## Renderer: registry upsert (App.jsx, handleChargerData) -/

/-- The renderer's real-time update handler (App.jsx lines 104-121): if
`message.event === 'charger_status_update'`, look up `message.data.ip`
among the current chargers by strict equality on their `ip` properties;
replace in place when found, append otherwise.  Registry entries and the
stored record are raw JavaScript values (`message.data` is stored as-is).
Errors model renderer TypeErrors (e.g. `message.data` undefined with a
non-empty registry). -/
def handleChargerData (message : JsVal) (prevChargers : List JsVal) :
    Except Unit (List JsVal) := do
  let ev ← propGet message "event"
  if jsStrictEq ev (some (Json.str "charger_status_update")) then do
    let mdata ← propGet message "data"
    let existingIndex ← findIndexM (fun c => do
      let cip ← propGet c "ip"
      let dip ← propGet mdata "ip"
      pure (jsStrictEq cip dip)) prevChargers
    match existingIndex with
    | some i => pure (prevChargers.set i mdata)
    | none => pure (prevChargers ++ [mdata])
  else
    pure prevChargers

/-- Events applied in arrival order (each `charger-data` IPC message is
delivered to `handleChargerData` sequentially). -/
def applyEvents : List JsVal → List JsVal → Except Unit (List JsVal)
  | [], l => .ok l
  | e :: es, l => do applyEvents es (← handleChargerData e l)

/-! ## Main process: one-shot snapshot close handler (main.js 78-89) -/

/-- Outcome of the `get-charger-data` close handler, i.e. of a session
whose process did spawn and exit: the promise is resolved with the parsed
value, or rejected.  The two rejection constructors record which branch
rejected — they are the spec's `ProducerExitFailure` (non-zero exit,
carrying exit code and accumulated stderr) and `MalformedOutputFailure`
(exit 0 but `JSON.parse` threw, carrying the undecodable stdout text).
A spawn failure never reaches the close handler; see `oneShotOutcome`. -/
inductive CloseOutcome where
  | resolve (value : Json)
  | producerExitFailure (code : Int) (errorData : String)
  | malformedOutputFailure (data : String)

/-- The rejection message built for a non-zero exit:
`Python script exited with code <code>: <errorData>`. -/
def producerExitMessage (code : Int) (errorData : String) : String :=
  "Python script exited with code " ++ toString code ++ ": " ++ errorData

/-- The close handler of the one-shot path (main.js lines 78-89): `data`
is the accumulated stdout, `errorData` the accumulated stderr.  Non-zero
exit code rejects with the stderr-carrying message; otherwise stdout is
decoded once, resolving on success and rejecting on decode failure. -/
def closeHandler (code : Int) (data errorData : String) : CloseOutcome :=
  if code ≠ 0 then .producerExitFailure code errorData
  else
    match jsonParse data with
    | some parsedData => .resolve parsedData
    | none => .malformedOutputFailure data

/-- The producer-process events that decide a one-shot session's fate:
either the executable could not be started (Node emits an 'error' event,
the spec's `SpawnFailure`), or the process ran and exited ('close' with
the exit code and the accumulated stream texts). -/
inductive SessionEvent where
  | spawnError : SessionEvent
  | closed (code : Int) (stdout stderr : String) : SessionEvent

/-- What the awaiter of the invoke observes: the promise settled with a
close outcome, or no settlement at all because an exception escaped
uncaught. -/
inductive OneShotResult where
  | settled (outcome : CloseOutcome) : OneShotResult
  | uncaughtError : OneShotResult

/-- The events on which the get-charger-data handler installs a listener
for the snapshot subprocess: stdout data (main.js line 68), stderr data
(line 73) and close (line 78).  There is no 'error' entry. -/
def oneShotRegisteredEvents : List String :=
  ["stdout.data", "stderr.data", "close"]

/-- Fate of one one-shot session.  A close event runs the close handler
and settles the promise with its outcome.  A spawn failure emits 'error';
'error' is not among the registered events, and Node raises an 'error'
event with no listener as an uncaught exception, so neither resolve nor
reject ever runs. -/
def oneShotOutcome : SessionEvent → OneShotResult
  | SessionEvent.spawnError => OneShotResult.uncaughtError
  | SessionEvent.closed code stdout stderr =>
    OneShotResult.settled (closeHandler code stdout stderr)

/-! ## Renderer: fetchData (App.jsx 88-100) -/

/-- The renderer component state touched by `fetchData`: the `chargers`
and `error` `useState` cells (both plain JavaScript values). -/
structure AppState where
  chargers : JsVal
  error : JsVal

/-- The renderer's `fetchData` (App.jsx lines 88-100) applied to the
settled result of the invoke: a rejection lands in the catch block, which
records `err.toString()` via `setError` and never rethrows — `errText`
stands for that platform-rendered message (Electron wraps the rejection's
text before the renderer sees it, so the exact string is not asserted
here); a resolved value is inspected for `success === false`.  Accessing
`.success` on a resolved `null` throws a TypeError whose rendering the
same catch block records. -/
def fetchData (st : AppState) (outcome : CloseOutcome) (errText : String) :
    AppState :=
  match outcome with
  | .resolve value =>
    (match propGet (some value) "success" with
     | .error _ => { st with error := some (Json.str errText) }
     | .ok successVal =>
       if jsStrictEq successVal (some (Json.bool false)) then
         { st with error := propGetD (some value) "message" }
       else
         { chargers := propGetD (some value) "devices", error := some Json.null })
  | .producerExitFailure _ _ => { st with error := some (Json.str errText) }
  | .malformedOutputFailure _ => { st with error := some (Json.str errText) }

/-! ## Main process: monitor-mode stdout handler (main.js 103-110) -/

/-- State threaded through the streaming pipeline: the renderer registry
reached through `webContents.send` / `handleChargerData`, the number of
`console.error` diagnostics for undecodable chunks, and the number of
`JSON.parse` invocations performed. -/
structure MonitorState where
  registry : List JsVal
  diagnostics : Nat
  decodeAttempts : Nat

/-- Initial streaming state: empty registry, nothing decoded yet. -/
def initMonitor : MonitorState := ⟨[], 0, 0⟩

/-- One firing of the monitor-mode stdout `data` callback (main.js lines
103-110) for one chunk: exactly one `JSON.parse` attempt on the whole
chunk text; on success the message is forwarded to the renderer's
`handleChargerData`, on failure one diagnostic is logged and the chunk is
dropped.  No buffering is carried between chunks and the chunk is not
split at newlines. -/
def monitorChunk (st : MonitorState) (chunk : String) :
    Except Unit MonitorState :=
  match jsonParse chunk with
  | some message =>
    (match handleChargerData (some message) st.registry with
     | .ok reg => .ok { st with registry := reg,
                                decodeAttempts := st.decodeAttempts + 1 }
     | .error e => .error e)
  | none =>
    .ok { st with diagnostics := st.diagnostics + 1,
                  decodeAttempts := st.decodeAttempts + 1 }

/-- The stdout chunks of a streaming session processed in order. -/
def monitorRun (st : MonitorState) : List String → Except Unit MonitorState
  | [] => .ok st
  | chunk :: rest => do monitorRun (← monitorChunk st chunk) rest

/-! ## Main process global state machine (main.js 7-8, 56-100, 118-121) -/

/-- Which mode a spawned producer subprocess was started in. -/
inductive ProcKind where
  | snapshot : ProcKind
  | monitor : ProcKind
deriving DecidableEq

/-- The main process globals relevant to process management: the single
shared `pythonProcess` variable (holding the pid it references, `none` for
null), a fresh-pid counter, the pids of monitor-mode subprocesses that
have not yet exited, and a log of every spawn. -/
structure MainState where
  pythonProcess : Option Nat
  nextPid : Nat
  liveMonitors : List Nat
  spawnLog : List (Nat × ProcKind)
deriving DecidableEq

/-- Main process at startup: `let pythonProcess;` is undefined/null. -/
def initMain : MainState := ⟨none, 0, [], []⟩

/-- The externally driven events of main.js that touch `pythonProcess`. -/
inductive MainEvent where
  | getChargerData : MainEvent
  | startMonitoring : MainEvent
  | monitorExit (pid : Nat) : MainEvent
  | snapshotExit : MainEvent
deriving DecidableEq

/-- One event of the main process:
* `get-charger-data` (lines 56-91) spawns unconditionally and assigns the
  shared `pythonProcess` variable to the new snapshot process; its close
  handler (`snapshotExit`) resolves or rejects but never touches the
  global.
* `start-monitoring` (lines 94-100) returns immediately when
  `pythonProcess` is truthy, otherwise spawns the monitor process and
  assigns the global.
* a monitor process close (lines 118-121) sets `pythonProcess = null`. -/
def step (s : MainState) : MainEvent → MainState
  | .getChargerData =>
    { s with pythonProcess := some s.nextPid,
             nextPid := s.nextPid + 1,
             spawnLog := s.spawnLog ++ [(s.nextPid, ProcKind.snapshot)] }
  | .startMonitoring =>
    if s.pythonProcess.isSome then s
    else
      { pythonProcess := some s.nextPid,
        nextPid := s.nextPid + 1,
        liveMonitors := s.liveMonitors ++ [s.nextPid],
        spawnLog := s.spawnLog ++ [(s.nextPid, ProcKind.monitor)] }
  | .monitorExit pid =>
    if pid ∈ s.liveMonitors then
      { s with liveMonitors := s.liveMonitors.erase pid,
               pythonProcess := none }
    else s
  | .snapshotExit => s

/-- A whole observable history of the main process. -/
def runMain (es : List MainEvent) : MainState := es.foldl step initMain

/-! ## Renderer: status classification (App.jsx 54-80, 159-163) -/

/-- The displayed configuration for one status category: heroicon name,
colour, and animation variant. -/
structure IconInfo where
  icon : String
  color : String
  variant : String
deriving DecidableEq

/-- `statusIcons['unknown']`, the fallback entry. -/
def unknownIcon : IconInfo := ⟨"ExclamationCircleIcon", "#f59e0b", "none"⟩

/-- `statusIcons.charging`. -/
def chargingIcon : IconInfo := ⟨"BoltIcon", "#3b82f6", "none"⟩

/-- The `statusIcons` configuration object (App.jsx lines 54-80). -/
def statusIcons : List (String × IconInfo) :=
  [("available", ⟨"CheckCircleIcon", "#22c55e", "pulse"⟩),
   ("charging", chargingIcon),
   ("preparing", ⟨"ClockIcon", "#ec4899", "none"⟩),
   ("suspendedev", ⟨"ExclamationTriangleIcon", "#ef4444", "none"⟩),
   ("unknown", unknownIcon)]

/-- The platform `String.prototype.toLowerCase` on one character,
restricted to the mappings whose result is ASCII: the letters A-Z and
U+212A KELVIN SIGN (the only other code point whose lower case is an
ASCII letter).  Every name the classification compares against — the
statusIcons keys and the all-lower-case inherited property names — is
pure ASCII, so whether a lower-cased status equals one of them depends
only on these mappings; all other characters are kept unchanged (their
JavaScript lower case is never ASCII and cannot produce a key match). -/
def jsCharToLower (c : Char) : Char :=
  if 'A' ≤ c ∧ c ≤ 'Z' then Char.ofNat (c.toNat + 32)
  else if c = Char.ofNat 0x212A then 'k'
  else c

/-- The platform `String.prototype.toLowerCase`. -/
def jsToLower (s : String) : String :=
  String.mk (s.data.map jsCharToLower)

/-- A character the platform `String.prototype.trim` removes: the full
ECMA-262 WhiteSpace and LineTerminator sets (tab, LF, VT, FF, CR, space,
NBSP, Ogham space mark, the U+2000 to U+200A spaces, LS, PS, narrow
no-break space, medium mathematical space, ideographic space, BOM). -/
def jsIsTrimmable (c : Char) : Bool :=
  c = '\t' ∨ c = '\n' ∨ c = Char.ofNat 11 ∨ c = Char.ofNat 12 ∨ c = '\r' ∨
  c = ' ' ∨ c = Char.ofNat 0xA0 ∨ c = Char.ofNat 0x1680 ∨
  (0x2000 ≤ c.toNat ∧ c.toNat ≤ 0x200A) ∨
  c = Char.ofNat 0x2028 ∨ c = Char.ofNat 0x2029 ∨ c = Char.ofNat 0x202F ∨
  c = Char.ofNat 0x205F ∨ c = Char.ofNat 0x3000 ∨ c = Char.ofNat 0xFEFF

/-- The platform `String.prototype.trim`: strip trimmable characters from
both ends. -/
def jsTrim (s : String) : String :=
  String.mk (((s.data.dropWhile jsIsTrimmable).reverse.dropWhile
    jsIsTrimmable).reverse)

/-- What a bracket lookup on the `statusIcons` object literal can yield:
one of its own entries, a truthy value inherited from `Object.prototype`
(bracket access consults the prototype chain after own keys), or
`undefined` when the property exists nowhere on the chain. -/
inductive StatusLookup where
  | info (i : IconInfo) : StatusLookup
  | inherited (name : String) : StatusLookup
  | undef : StatusLookup
deriving DecidableEq

/-- The `Object.prototype` property names consisting solely of lower-case
letters and underscores.  A lower-cased status can only collide with
these two: every other inherited name (toString, valueOf, hasOwnProperty,
isPrototypeOf, propertyIsEnumerable, toLocaleString, the legacy
__define/__lookup accessors) contains an upper-case letter and is
unreachable after `toLowerCase()`. -/
def lowerCaseProtoProps : List String := ["constructor", "__proto__"]

/-- JavaScript bracket access `statusIcons[status]`: own keys first, then
the prototype chain, else undefined. -/
def statusBracketLookup (status : String) : StatusLookup :=
  match (statusIcons.find? (fun p => p.1 = status)).map (fun p => p.2) with
  | some info => StatusLookup.info info
  | none =>
    if status ∈ lowerCaseProtoProps then StatusLookup.inherited status
    else StatusLookup.undef

/-- Lookup after normalisation (App.jsx lines 161-162):
`const status = charger.status.toLowerCase().trim();`
`const iconInfo = statusIcons[status] || statusIcons['unknown'];`.
The `||` falls back only on a falsy lookup (undefined); a truthy
inherited value short-circuits it. -/
def statusIconFor (raw : String) : StatusLookup :=
  let status := jsTrim (jsToLower raw)
  match statusBracketLookup status with
  | StatusLookup.undef => StatusLookup.info unknownIcon
  | other => other

/-! ## Registry reasoning layer

`handleChargerData` is reduced, on well-formed inputs, to a pure
first-match replace-or-append on the list, about which the ordering and
uniqueness properties are proved. -/

/-- The `ip` property of a registry entry when it is a string. -/
def ipStr (c : JsVal) : Option String :=
  match propGetD c "ip" with
  | some (Json.str s) => some s
  | _ => none

/-- The predicate the renderer's findIndex callback computes for an entry,
for an update whose record has string ip `s`. -/
def ipMatches (s : String) (c : JsVal) : Bool :=
  jsStrictEq (propGetD c "ip") (some (Json.str s))

/-- The ip carried by a bridge event (`message.data.ip` when a string). -/
def eventIp (m : JsVal) : Option String :=
  ipStr (propGetD m "data")

/-- First index satisfying a pure predicate (the source's `findIndex`,
with -1 as `none`). -/
def findIdxPure (q : JsVal → Bool) : List JsVal → Option Nat
  | [] => none
  | c :: cs => if q c then some 0 else (findIdxPure q cs).map (· + 1)

/-- Pure replace-or-append: replace at the first index matching `q`, else
append.  This is what `handleChargerData` computes on well-formed input. -/
def upsertPure (q : JsVal → Bool) (d : JsVal) (l : List JsVal) : List JsVal :=
  match findIdxPure q l with
  | some i => l.set i d
  | none => l ++ [d]

/-- `m` is a well-formed `BridgeEvent` envelope: an object tagged
`charger_status_update` whose `data` is the object `d` with string ip
`s`. -/
def IsBridgeEvent (m : JsVal) (d : Json) (s : String) : Prop :=
  ∃ mf, m = some (Json.obj mf) ∧
    lookupField mf "event" = some (Json.str "charger_status_update") ∧
    lookupField mf "data" = some d ∧
    ∃ df, d = Json.obj df ∧ lookupField df "ip" = some (Json.str s)

/-- Registry well-formedness: every entry is an object with a string ip,
and the ips are pairwise distinct. -/
def RegistryWf (l : List JsVal) : Prop :=
  (∀ c ∈ l, ∃ t, ipStr c = some t) ∧ (l.map ipStr).Nodup

lemma ipStr_accessible {c : JsVal} {t : String} (h : ipStr c = some t) :
    accessible c = true := by
  cases c with
  | none => simp [ipStr, propGetD] at h
  | some j => cases j <;> simp_all [ipStr, propGetD, accessible]

lemma propGet_accessible (c : JsVal) (k : String) (h : accessible c = true) :
    propGet c k = .ok (propGetD c k) := by
  cases c with
  | none => simp [accessible] at h
  | some j => cases j <;> simp_all [accessible, propGet, propGetD]

lemma ipMatches_iff (s : String) (c : JsVal) :
    ipMatches s c = true ↔ ipStr c = some s := by
  unfold ipMatches ipStr
  cases h : propGetD c "ip" with
  | none => simp [jsStrictEq]
  | some j => cases j <;> simp [jsStrictEq]

/-- A monadic findIndex whose callback never throws on the list at hand
computes the pure first match. -/
lemma findIndexM_reduce (p : JsVal → Except Unit Bool) (q : JsVal → Bool)
    (l : List JsVal) (h : ∀ c ∈ l, p c = .ok (q c)) :
    findIndexM p l = .ok (findIdxPure q l) := by
  induction l with
  | nil => rfl
  | cons c cs ih =>
    have hc : p c = .ok (q c) := h c (by simp)
    have hcs : ∀ x ∈ cs, p x = .ok (q x) := fun x hx => h x (by simp [hx])
    simp only [findIndexM, findIdxPure, hc, Bind.bind, Except.bind]
    cases hq : q c with
    | true => simp [Pure.pure, Except.pure]
    | false => simp [ih hcs, Pure.pure, Except.pure]

/-- On a well-formed event and a registry of accessible entries,
`handleChargerData` succeeds and computes the pure replace-or-append. -/
lemma handleChargerData_reduce {m : JsVal} {d : Json} {s : String}
    (hm : IsBridgeEvent m d s) (l : List JsVal)
    (hl : ∀ c ∈ l, accessible c = true) :
    handleChargerData m l = .ok (upsertPure (ipMatches s) (some d) l) := by
  obtain ⟨mf, rfl, hev, hdata, df, rfl, hip⟩ := hm
  have hfind : findIndexM (fun c => do
      let cip ← propGet c "ip"
      let dip ← propGet (some (Json.obj df)) "ip"
      pure (jsStrictEq cip dip)) l = .ok (findIdxPure (ipMatches s) l) := by
    apply findIndexM_reduce
    intro c hcmem
    have hc := propGet_accessible c "ip" (hl c hcmem)
    have hd : propGet (some (Json.obj df)) "ip" = .ok (some (Json.str s)) := by
      simp [propGet, hip]
    simp [hc, hd, Bind.bind, Except.bind, Pure.pure, Except.pure, ipMatches]
  rw [handleChargerData]
  have hev2 : propGet (some (Json.obj mf)) "event"
      = .ok (some (Json.str "charger_status_update")) := by
    simp [propGet, hev]
  have hdata2 : propGet (some (Json.obj mf)) "data" = .ok (some (Json.obj df)) := by
    simp [propGet, hdata]
  simp only [hev2, Bind.bind, Except.bind]
  have htag : jsStrictEq (some (Json.str "charger_status_update"))
      (some (Json.str "charger_status_update")) = true := by
    simp [jsStrictEq]
  rw [if_pos htag]
  simp only [Bind.bind, Except.bind] at hfind
  simp only [hdata2, hfind]
  unfold upsertPure
  cases hf : findIdxPure (ipMatches s) l <;>
    simp [hf, Pure.pure, Except.pure]

/-! ### Pure upsert lemmas -/

lemma upsertPure_cons_pos {q : JsVal → Bool} {c : JsVal} {cs : List JsVal}
    {d : JsVal} (h : q c = true) : upsertPure q d (c :: cs) = d :: cs := by
  simp [upsertPure, findIdxPure, h]

lemma upsertPure_cons_neg {q : JsVal → Bool} {c : JsVal} {cs : List JsVal}
    {d : JsVal} (h : q c = false) :
    upsertPure q d (c :: cs) = c :: upsertPure q d cs := by
  simp only [upsertPure, findIdxPure, h, Bool.false_eq_true, if_false]
  cases hf : findIdxPure q cs <;> simp [hf]

lemma mem_upsertPure {q : JsVal → Bool} {d x : JsVal} {l : List JsVal}
    (h : x ∈ upsertPure q d l) : x = d ∨ x ∈ l := by
  induction l with
  | nil => simpa [upsertPure, findIdxPure] using h
  | cons c cs ih =>
    cases hq : q c with
    | true =>
      rw [upsertPure_cons_pos hq] at h
      rcases List.mem_cons.mp h with h2 | h2
      · exact Or.inl h2
      · exact Or.inr (List.mem_cons_of_mem c h2)
    | false =>
      rw [upsertPure_cons_neg hq] at h
      rcases List.mem_cons.mp h with h2 | h2
      · exact Or.inr (h2 ▸ List.mem_cons_self c cs)
      · rcases ih h2 with h3 | h3
        · exact Or.inl h3
        · exact Or.inr (List.mem_cons_of_mem c h3)

lemma findIdxPure_upsert {q : JsVal → Bool} {d : JsVal} (hd : q d = true)
    (l : List JsVal) :
    findIdxPure q (upsertPure q d l) = some ((findIdxPure q l).getD l.length) := by
  induction l with
  | nil => simp [upsertPure, findIdxPure, hd]
  | cons c cs ih =>
    cases hq : q c with
    | true => rw [upsertPure_cons_pos hq]; simp [findIdxPure, hd, hq]
    | false =>
      rw [upsertPure_cons_neg hq]
      simp only [findIdxPure, hq, Bool.false_eq_true, if_false, ih]
      cases hf : findIdxPure q cs <;> simp [hf]

lemma getElem?_upsert {q : JsVal → Bool} {d : JsVal}
    (l : List JsVal) :
    (upsertPure q d l)[(findIdxPure q l).getD l.length]? = some d := by
  induction l with
  | nil => simp [upsertPure, findIdxPure]
  | cons c cs ih =>
    cases hq : q c with
    | true => rw [upsertPure_cons_pos hq]; simp [findIdxPure, hq]
    | false =>
      rw [upsertPure_cons_neg hq]
      simp only [findIdxPure, hq, Bool.false_eq_true, if_false]
      cases hf : findIdxPure q cs with
      | none => simpa [hf] using ih
      | some i => simpa [hf] using ih

lemma length_upsert {q : JsVal → Bool} {d : JsVal} (l : List JsVal) :
    (upsertPure q d l).length =
      match findIdxPure q l with
      | some _ => l.length
      | none => l.length + 1 := by
  unfold upsertPure
  cases hf : findIdxPure q l <;> simp [hf]

lemma filter_upsert {q : JsVal → Bool} {d : JsVal} (hd : q d = true)
    {l : List JsVal} (h1 : (l.filter q).length ≤ 1) :
    (upsertPure q d l).filter q = [d] := by
  induction l with
  | nil => simp [upsertPure, findIdxPure, hd]
  | cons c cs ih =>
    cases hq : q c with
    | true =>
      rw [upsertPure_cons_pos hq]
      have hcs : cs.filter q = [] := by
        rw [List.filter_cons_of_pos hq] at h1
        simp only [List.length_cons] at h1
        exact List.length_eq_zero.mp (by omega)
      simp [List.filter_cons_of_pos hd, hcs]
    | false =>
      rw [upsertPure_cons_neg hq, List.filter_cons_of_neg (by simp [hq])]
      rw [List.filter_cons_of_neg (by simp [hq])] at h1
      exact ih h1

/-- A registry with pairwise-distinct ips has at most one entry matching a
given ip. -/
lemma filter_ipMatches_le_one {l : List JsVal} (h : (l.map ipStr).Nodup)
    (s : String) : (l.filter (ipMatches s)).length ≤ 1 := by
  induction l with
  | nil => simp
  | cons c cs ih =>
    simp only [List.map_cons, List.nodup_cons] at h
    cases hq : ipMatches s c with
    | true =>
      have hcs : cs.filter (ipMatches s) = [] := by
        rw [List.filter_eq_nil_iff]
        intro x hx hqx
        have hxs : ipStr x = some s := (ipMatches_iff s x).mp hqx
        have hcss : ipStr c = some s := (ipMatches_iff s c).mp hq
        exact h.1 (by rw [hcss, ← hxs]; exact List.mem_map_of_mem ipStr hx)
      simp [List.filter_cons_of_pos hq, hcs]
    | false =>
      rw [List.filter_cons_of_neg (by simp [hq])]
      exact ih h.2

lemma map_ipStr_upsert {s : String} {d : Json}
    (hd : ipStr (some d) = some s) (l : List JsVal) :
    (upsertPure (ipMatches s) (some d) l).map ipStr =
      if some s ∈ l.map ipStr then l.map ipStr else l.map ipStr ++ [some s] := by
  have hdq : ipMatches s (some d) = true := (ipMatches_iff s (some d)).mpr hd
  induction l with
  | nil => simp [upsertPure, findIdxPure, hd]
  | cons c cs ih =>
    cases hq : ipMatches s c with
    | true =>
      have hcs : ipStr c = some s := (ipMatches_iff s c).mp hq
      rw [upsertPure_cons_pos hq]
      simp [hd, hcs]
    | false =>
      have hcs : ipStr c ≠ some s := fun he =>
        by simpa [hq] using (ipMatches_iff s c).mpr he
      rw [upsertPure_cons_neg hq]
      by_cases hm : some s ∈ cs.map ipStr
      · have hm2 : some s ∈ (c :: cs).map ipStr := by
          simp only [List.map_cons, List.mem_cons]
          exact Or.inr hm
        rw [if_pos hm2]
        simp only [List.map_cons, ih, if_pos hm]
      · have hm2 : some s ∉ (c :: cs).map ipStr := by
          simp only [List.map_cons, List.mem_cons]
          rintro (he | he)
          · exact hcs he.symm
          · exact hm he
        rw [if_neg hm2]
        simp only [List.map_cons, ih, if_neg hm, List.cons_append]

/-- Upserting a well-formed record preserves registry well-formedness. -/
lemma registryWf_upsert {s : String} {d : Json}
    (hd : ipStr (some d) = some s) {l : List JsVal} (hw : RegistryWf l) :
    RegistryWf (upsertPure (ipMatches s) (some d) l) := by
  constructor
  · intro c hc
    rcases mem_upsertPure hc with rfl | hc2
    · exact ⟨s, hd⟩
    · exact hw.1 c hc2
  · rw [map_ipStr_upsert hd l]
    by_cases hm : some s ∈ l.map ipStr
    · simpa [hm] using hw.2
    · rw [if_neg hm, show l.map ipStr ++ [some s] = l.map ipStr ++ some s :: []
        from rfl, List.nodup_middle]
      simp [hw.2, hm]

/-- The ip set after an upsert is the old ip set plus the new ip. -/
lemma toFinset_ipStr_upsert {s : String} {d : Json}
    (hd : ipStr (some d) = some s) (l : List JsVal) :
    ((upsertPure (ipMatches s) (some d) l).map ipStr).toFinset =
      insert (some s) (l.map ipStr).toFinset := by
  rw [map_ipStr_upsert hd l]
  by_cases hm : some s ∈ l.map ipStr
  · rw [if_pos hm, Finset.insert_eq_self.mpr (List.mem_toFinset.mpr hm)]
  · rw [if_neg hm]; ext x; simp [or_comm]

/-- Applying well-formed bridge events to a well-formed registry succeeds,
preserves well-formedness, and the resulting ip set is the old ip set
united with the ips carried by the events. -/
lemma applyEvents_ok (es : List JsVal) (l : List JsVal)
    (hes : ∀ e ∈ es, ∃ d s, IsBridgeEvent e d s) (hl : RegistryWf l) :
    ∃ r, applyEvents es l = .ok r ∧ RegistryWf r ∧
      (r.map ipStr).toFinset =
        (l.map ipStr).toFinset ∪ (es.map eventIp).toFinset := by
  induction es generalizing l with
  | nil => exact ⟨l, rfl, hl, by simp⟩
  | cons e es ih =>
    obtain ⟨d, s, hbe⟩ := hes e (by simp)
    have hes2 : ∀ x ∈ es, ∃ d2 s2, IsBridgeEvent x d2 s2 := fun x hx =>
      hes x (by simp [hx])
    have hacc : ∀ c ∈ l, accessible c = true := by
      intro c hc
      obtain ⟨t, ht⟩ := hl.1 c hc
      exact ipStr_accessible ht
    have hred := handleChargerData_reduce hbe l hacc
    have hd : ipStr (some d) = some s := by
      obtain ⟨mf, hm, hev, hdata, df, hdeq, hip⟩ := hbe
      simp [ipStr, propGetD, hdeq, hip]
    have hwf2 := registryWf_upsert hd hl
    obtain ⟨r, hr, hwr, hset⟩ := ih (upsertPure (ipMatches s) (some d) l) hes2 hwf2
    refine ⟨r, ?_, hwr, ?_⟩
    · simp [applyEvents, hred, Bind.bind, Except.bind, hr]
    · rw [hset, toFinset_ipStr_upsert hd l]
      have heip : eventIp e = some s := by
        obtain ⟨mf, hm, hev, hdata, df, hdeq, hip⟩ := hbe
        simp [eventIp, hm, propGetD, hdata, hdeq, ipStr, hip]
      simp only [List.map_cons, List.toFinset_cons, heip]
      rw [Finset.insert_union, Finset.union_insert]

/-! ### Main process invariant -/

/-- Invariant of the main process state: at most one monitor subprocess is
alive, and while one is alive the shared `pythonProcess` variable is
non-null (so the `start-monitoring` guard blocks a second spawn). -/
def MainInv (s : MainState) : Prop :=
  s.liveMonitors.length ≤ 1 ∧
    (s.liveMonitors ≠ [] → s.pythonProcess.isSome = true)

lemma step_inv {s : MainState} (h : MainInv s) (e : MainEvent) :
    MainInv (step s e) := by
  cases e with
  | getChargerData => exact ⟨h.1, fun _ => rfl⟩
  | startMonitoring =>
    by_cases hp : s.pythonProcess.isSome = true
    · simpa [step, hp] using h
    · have hempty : s.liveMonitors = [] := by
        by_contra hne
        exact hp (h.2 hne)
      simp [step, hp, hempty, MainInv]
  | monitorExit pid =>
    by_cases hm : pid ∈ s.liveMonitors
    · have hlen : s.liveMonitors.length = 1 := by
        have h1 := h.1
        have h2 := List.length_pos_of_mem hm
        omega
      have herase : s.liveMonitors.erase pid = [] := by
        apply List.length_eq_zero.mp
        rw [List.length_erase_of_mem hm, hlen]
      constructor
      · simp [step, hm, herase]
      · intro hne
        exact absurd herase (by simpa [step, hm] using hne)
    · simpa [step, hm] using h
  | snapshotExit => exact h

lemma foldl_step_inv (es : List MainEvent) :
    ∀ s, MainInv s → MainInv (es.foldl step s) := by
  induction es with
  | nil => exact fun s h => h
  | cons e es ih => exact fun s h => ih (step s e) (step_inv h e)

lemma runMain_inv (es : List MainEvent) : MainInv (runMain es) :=
  foldl_step_inv es initMain ⟨by simp [initMain], by simp [initMain]⟩

/-! ## Concrete inputs used by the claims -/

/-- A well-formed, newline-terminated charger_status_update line. -/
def goodLine : String :=
  "\x7b\"event\":\"charger_status_update\",\"data\":\x7b\"ip\":\"10.0.0.5\"\x7d\x7d\n"

/-- The record carried by `goodLine`. -/
def goodRecord : Json := Json.obj [("ip", Json.str "10.0.0.5")]

/-- The front half of `goodLine`, as delivered in a first stdout chunk. -/
def chunkFront : String := "\x7b\"event\":\"charger_status_update\","

/-- The back half of `goodLine`, as delivered in a second stdout chunk. -/
def chunkBack : String := "\"data\":\x7b\"ip\":\"10.0.0.5\"\x7d\x7d\n"

/-- The malformed line of the spec's malformed-line-isolation property. -/
def badLine : String := "\x7ba\x7d\n"

/-- An update event for ip 10.0.0.5 with status Available. -/
def recordA : Json :=
  Json.obj [("ip", Json.str "10.0.0.5"), ("status", Json.str "Available")]

/-- `recordA` wrapped in its envelope. -/
def eventA : JsVal :=
  some (Json.obj [("event", Json.str "charger_status_update"), ("data", recordA)])

/-- A later update event for the same ip 10.0.0.5, status Charging. -/
def recordB : Json :=
  Json.obj [("ip", Json.str "10.0.0.5"), ("status", Json.str "Charging")]

/-- `recordB` wrapped in its envelope. -/
def eventB : JsVal :=
  some (Json.obj [("event", Json.str "charger_status_update"), ("data", recordB)])

/-- An update event for a different ip 10.0.0.6. -/
def recordC : Json :=
  Json.obj [("ip", Json.str "10.0.0.6"), ("status", Json.str "Preparing")]

/-- `recordC` wrapped in its envelope. -/
def eventC : JsVal :=
  some (Json.obj [("event", Json.str "charger_status_update"), ("data", recordC)])

/-! ## The claims -/

/-- C1 (counterexample): the claim that a snapshot call shares no mutable
session state with the streaming session and leaves the active-session
marker unchanged is false on the code.  With a streaming session active
(monitor process 0 alive, `pythonProcess = some 0`), one `get-charger-data`
call reassigns the shared global `pythonProcess` to the snapshot process:
the active-session marker changes from `some 0` to `some 1` while the
monitor process is still alive. -/
theorem c1_counterexample :
    (runMain [MainEvent.startMonitoring]).pythonProcess = some 0 ∧
    (runMain [MainEvent.startMonitoring]).liveMonitors = [0] ∧
    (runMain [MainEvent.startMonitoring, MainEvent.getChargerData]).liveMonitors
        = [0] ∧
    (runMain [MainEvent.startMonitoring, MainEvent.getChargerData]).pythonProcess
        = some 1 ∧
    (some 1 : Option Nat) ≠ some 0 := by
  decide

/-- C1 (amended): each snapshot call spawns a fresh subprocess without
waiting on any previous process, and does not touch the set of live
monitor processes; but the call writes the shared global `pythonProcess`,
so whenever that global does not already name the fresh pid (in
particular, whenever a streaming session's handle is stored there) the
snapshot call changes it. -/
theorem c1_amended (s : MainState) (h : s.pythonProcess ≠ some s.nextPid) :
    (step s MainEvent.getChargerData).spawnLog
        = s.spawnLog ++ [(s.nextPid, ProcKind.snapshot)] ∧
    (step s MainEvent.getChargerData).liveMonitors = s.liveMonitors ∧
    (step s MainEvent.getChargerData).pythonProcess = some s.nextPid ∧
    (step s MainEvent.getChargerData).pythonProcess ≠ s.pythonProcess := by
  refine ⟨rfl, rfl, rfl, ?_⟩
  simpa [step] using fun he => h he.symm

/-- C1 witness: the amended statement applied to the state reached after
`start-monitoring`. -/
theorem c1_witness :
    ((⟨some 0, 1, [0], [(0, ProcKind.monitor)]⟩ : MainState).pythonProcess
        ≠ some (⟨some 0, 1, [0], [(0, ProcKind.monitor)]⟩ : MainState).nextPid) ∧
    (step (⟨some 0, 1, [0], [(0, ProcKind.monitor)]⟩ : MainState)
        MainEvent.getChargerData).pythonProcess
      ≠ (⟨some 0, 1, [0], [(0, ProcKind.monitor)]⟩ : MainState).pythonProcess :=
  ⟨by decide,
   (c1_amended ⟨some 0, 1, [0], [(0, ProcKind.monitor)]⟩ (by decide)).2.2.2⟩

/-- C2 (code bug): the streaming stdout handler performs exactly one
`JSON.parse` attempt per arriving chunk on the whole chunk text, with no
buffering across chunk boundaries and no splitting at newlines.  A valid
record line split across two chunks produces two decode attempts, two
diagnostics and no registry upsert (the claim requires one decode of the
reassembled line and one upsert); a single chunk holding that line twice
produces one decode attempt on the whole chunk, which fails (the claim
requires two decodes and two upserts); only when chunks coincide with
lines does one decode per line occur. -/
theorem c2_no_chunk_buffering :
    monitorRun initMonitor [chunkFront, chunkBack]
        = .ok ⟨[], 2, 2⟩ ∧
    chunkFront ++ chunkBack = goodLine ∧
    (jsonParse goodLine).isSome = true ∧
    monitorRun initMonitor [goodLine ++ goodLine] = .ok ⟨[], 1, 1⟩ ∧
    monitorRun initMonitor [goodLine, goodLine]
        = .ok ⟨[some goodRecord], 0, 2⟩ :=
  ⟨rfl, rfl, rfl, rfl, rfl⟩

/-- C3 (counterexample): for the spec's input — a malformed line followed
by one well-formed charger_status_update line — delivered in a single
stdout chunk, the stream yields one diagnostic but zero successful
registry upserts (the registry stays empty), refuting "exactly one
successful Registry upsert" for that input. -/
theorem c3_counterexample :
    monitorRun initMonitor [badLine ++ goodLine] = .ok ⟨[], 1, 1⟩ :=
  rfl

/-- C3 (amended): when each line of that input arrives as its own stdout
chunk, the malformed chunk produces exactly one non-fatal diagnostic and
is skipped, the stream continues, and the following well-formed chunk
produces exactly one successful registry upsert. -/
theorem c3_amended :
    monitorRun initMonitor [badLine, goodLine]
        = .ok ⟨[some goodRecord], 1, 2⟩ :=
  rfl

/-- C4 (counterexample): the claim that every failure of the one-shot
path is returned to the immediate caller as a discriminated result and
never thrown past the boundary uncaught is false on the code.  The
get-charger-data handler installs listeners only for stdout data, stderr
data and close; on a spawn failure (the one-shot path's SpawnFailure)
Node emits an 'error' event, and an 'error' event with no listener is an
uncaught exception — the invoke settles with no discriminated result at
all. -/
theorem c4_counterexample :
    "error" ∉ oneShotRegisteredEvents ∧
    oneShotOutcome SessionEvent.spawnError = OneShotResult.uncaughtError ∧
    ∀ o : CloseOutcome,
      oneShotOutcome SessionEvent.spawnError ≠ OneShotResult.settled o := by
  refine ⟨by decide, rfl, ?_⟩
  intro o h
  exact OneShotResult.noConfusion h

/-- C4 (amended): every failure of the close path — where the snapshot
process did spawn and exit — is a settled discriminated rejection: exit
code 0 with undecodable stdout always settles with the malformed-output
failure carrying the undecodable text (never a crash, never an empty
success), and the renderer's catch records the thrown message in the
error state without touching the charger list and without rethrowing.
A spawn failure is exempt: it is thrown uncaught and never settles (see
the counterexample). -/
theorem c4_amended (data errorData : String) (h : jsonParse data = none) :
    oneShotOutcome (SessionEvent.closed 0 data errorData)
        = OneShotResult.settled (CloseOutcome.malformedOutputFailure data) ∧
    ∀ (st : AppState) (errText : String),
      (fetchData st (closeHandler 0 data errorData) errText).error
          = some (Json.str errText) ∧
      (fetchData st (closeHandler 0 data errorData) errText).chargers
          = st.chargers := by
  have hc : closeHandler 0 data errorData = .malformedOutputFailure data := by
    simp [closeHandler, h]
  constructor
  · simp [oneShotOutcome, hc]
  · intro st errText
    constructor <;> simp [hc, fetchData]

/-- C4 witness: the spec's concrete input, stdout "not json". -/
theorem c4_witness :
    jsonParse "not json" = none ∧
    oneShotOutcome (SessionEvent.closed 0 "not json" "")
        = OneShotResult.settled (CloseOutcome.malformedOutputFailure "not json") :=
  ⟨rfl, (c4_amended "not json" "" rfl).1⟩

/-- C5 (confirmed): in whole-output mode a non-zero exit code always
yields the producer-exit rejection carrying the exit code and the
accumulated stderr, for every stdout content (the accumulated stdout is
discarded: the outcome is the same for any two stdout texts), and the
rejection message contains the stderr text. -/
theorem c5_exit_code_precedence (code : Int) (data data2 errorData : String)
    (h : code ≠ 0) :
    closeHandler code data errorData = .producerExitFailure code errorData ∧
    closeHandler code data errorData = closeHandler code data2 errorData ∧
    ∃ a b, producerExitMessage code errorData = a ++ errorData ++ b := by
  have hc : ∀ dd : String,
      closeHandler code dd errorData = .producerExitFailure code errorData := by
    intro dd
    simp [closeHandler, h]
  refine ⟨hc data, (hc data).trans (hc data2).symm,
    "Python script exited with code " ++ toString code ++ ": ", "", ?_⟩
  simp [producerExitMessage]

/-- C5 witness: exit code 1 with stderr "boom", arbitrary stdout. -/
theorem c5_witness :
    ((1 : Int) ≠ 0) ∧
    closeHandler 1 "ignored stdout" "boom" = .producerExitFailure 1 "boom" ∧
    ∃ a b, producerExitMessage 1 "boom" = a ++ "boom" ++ b :=
  ⟨by decide,
   (c5_exit_code_precedence 1 "ignored stdout" "" "boom" (by decide)).1,
   (c5_exit_code_precedence 1 "ignored stdout" "" "boom" (by decide)).2.2⟩

/-- C6 (confirmed): registry upsert is last-write-wins and
position-stable.  For any well-formed registry and two events with the
same ip applied in order, both upserts succeed; afterwards the registry
holds exactly the second event's record for that ip; that record sits at
the position originally assigned to the ip (its existing index if the ip
was present, else the old length, where the first event appended it); and
an absent ip is appended at the end. -/
theorem c6_upsert_last_write_wins (prev : List JsVal) (e1 e2 : JsVal)
    (d1 d2 : Json) (s : String) (hw : RegistryWf prev)
    (h1 : IsBridgeEvent e1 d1 s) (h2 : IsBridgeEvent e2 d2 s) :
    ∃ l1 l2,
      handleChargerData e1 prev = .ok l1 ∧
      handleChargerData e2 l1 = .ok l2 ∧
      l2.filter (ipMatches s) = [some d2] ∧
      findIdxPure (ipMatches s) l2
          = some ((findIdxPure (ipMatches s) prev).getD prev.length) ∧
      l2[(findIdxPure (ipMatches s) prev).getD prev.length]? = some (some d2) ∧
      (findIdxPure (ipMatches s) prev = none →
        l1 = prev ++ [some d1] ∧ l2.length = prev.length + 1) ∧
      (∀ i, findIdxPure (ipMatches s) prev = some i →
        l2.length = prev.length) := by
  have hacc : ∀ c ∈ prev, accessible c = true := by
    intro c hc
    obtain ⟨t, ht⟩ := hw.1 c hc
    exact ipStr_accessible ht
  have hd1 : ipStr (some d1) = some s := by
    obtain ⟨mf, hm, hev, hdata, df, hdeq, hip⟩ := h1
    simp [ipStr, propGetD, hdeq, hip]
  have hd2 : ipStr (some d2) = some s := by
    obtain ⟨mf, hm, hev, hdata, df, hdeq, hip⟩ := h2
    simp [ipStr, propGetD, hdeq, hip]
  have hq1 : ipMatches s (some d1) = true := (ipMatches_iff s (some d1)).mpr hd1
  have hq2 : ipMatches s (some d2) = true := (ipMatches_iff s (some d2)).mpr hd2
  have hred1 := handleChargerData_reduce h1 prev hacc
  have hwf1 : RegistryWf (upsertPure (ipMatches s) (some d1) prev) :=
    registryWf_upsert hd1 hw
  have hacc1 : ∀ c ∈ upsertPure (ipMatches s) (some d1) prev,
      accessible c = true := by
    intro c hc
    obtain ⟨t, ht⟩ := hwf1.1 c hc
    exact ipStr_accessible ht
  have hred2 := handleChargerData_reduce h2 _ hacc1
  have hfix1 := findIdxPure_upsert hq1 prev
  refine ⟨_, _, hred1, hred2, ?_, ?_, ?_, ?_, ?_⟩
  · exact filter_upsert hq2 (filter_ipMatches_le_one hwf1.2 s)
  · rw [findIdxPure_upsert hq2, hfix1]
    simp
  · have hg := getElem?_upsert (q := ipMatches s) (d := some d2)
      (upsertPure (ipMatches s) (some d1) prev)
    rw [hfix1] at hg
    simpa using hg
  · intro hnone
    constructor
    · unfold upsertPure
      rw [hnone]
    · rw [length_upsert, hfix1, length_upsert, hnone]
  · intro i hi
    rw [length_upsert, hfix1, length_upsert, hi]

/-- C6 witness: two updates for ip 10.0.0.5 applied to the empty registry;
the second record is the one kept. -/
theorem c6_witness :
    RegistryWf [] ∧
    IsBridgeEvent eventA recordA "10.0.0.5" ∧
    IsBridgeEvent eventB recordB "10.0.0.5" ∧
    (∃ l1 l2,
      handleChargerData eventA [] = .ok l1 ∧
      handleChargerData eventB l1 = .ok l2 ∧
      l2.filter (ipMatches "10.0.0.5") = [some recordB]) := by
  have hw : RegistryWf [] := ⟨by simp, by simp⟩
  have hA : IsBridgeEvent eventA recordA "10.0.0.5" :=
    ⟨[("event", Json.str "charger_status_update"), ("data", recordA)],
      rfl, rfl, rfl,
      [("ip", Json.str "10.0.0.5"), ("status", Json.str "Available")], rfl, rfl⟩
  have hB : IsBridgeEvent eventB recordB "10.0.0.5" :=
    ⟨[("event", Json.str "charger_status_update"), ("data", recordB)],
      rfl, rfl, rfl,
      [("ip", Json.str "10.0.0.5"), ("status", Json.str "Charging")], rfl, rfl⟩
  obtain ⟨l1, l2, ha, hb, hfilter, hrest⟩ :=
    c6_upsert_last_write_wins [] eventA eventB recordA recordB "10.0.0.5" hw hA hB
  exact ⟨hw, hA, hB, l1, l2, ha, hb, hfilter⟩

/-- C7 (confirmed): applying any finite sequence of well-formed
BridgeEvents to the empty registry succeeds, and the number of registry
entries equals the number of distinct ip values occurring across the
sequence. -/
theorem c7_registry_uniqueness (es : List JsVal)
    (hes : ∀ e ∈ es, ∃ d s, IsBridgeEvent e d s) :
    ∃ r, applyEvents es [] = .ok r ∧
      r.length = (es.map eventIp).toFinset.card := by
  obtain ⟨r, hr, hwr, hset⟩ := applyEvents_ok es [] hes ⟨by simp, by simp⟩
  refine ⟨r, hr, ?_⟩
  calc r.length = (r.map ipStr).length := (List.length_map r ipStr).symm
    _ = (r.map ipStr).toFinset.card :=
        (List.toFinset_card_of_nodup hwr.2).symm
    _ = (es.map eventIp).toFinset.card := by
        rw [hset]
        simp

/-- C7 witness: three events, two of which share an ip, give a registry of
two entries. -/
theorem c7_witness :
    (∀ e ∈ [eventA, eventB, eventC], ∃ d s, IsBridgeEvent e d s) ∧
    (∃ r, applyEvents [eventA, eventB, eventC] [] = .ok r ∧
      r.length = ([eventA, eventB, eventC].map eventIp).toFinset.card) := by
  have hes : ∀ e ∈ [eventA, eventB, eventC], ∃ d s, IsBridgeEvent e d s := by
    intro e he
    simp only [List.mem_cons, List.not_mem_nil, or_false] at he
    rcases he with rfl | rfl | rfl
    · exact ⟨recordA, "10.0.0.5",
        [("event", Json.str "charger_status_update"), ("data", recordA)],
        rfl, rfl, rfl,
        [("ip", Json.str "10.0.0.5"), ("status", Json.str "Available")], rfl, rfl⟩
    · exact ⟨recordB, "10.0.0.5",
        [("event", Json.str "charger_status_update"), ("data", recordB)],
        rfl, rfl, rfl,
        [("ip", Json.str "10.0.0.5"), ("status", Json.str "Charging")], rfl, rfl⟩
    · exact ⟨recordC, "10.0.0.6",
        [("event", Json.str "charger_status_update"), ("data", recordC)],
        rfl, rfl, rfl,
        [("ip", Json.str "10.0.0.6"), ("status", Json.str "Preparing")], rfl, rfl⟩
  exact ⟨hes, c7_registry_uniqueness [eventA, eventB, eventC] hes⟩

/-- C8 (confirmed): while `pythonProcess` is set — in particular while a
streaming session is active, since an active monitor process keeps the
marker non-null — a `start-monitoring` call is a no-op on the whole state
(so it spawns nothing); and along every event history of the main process
at most one monitor subprocess is alive at a time. -/
theorem c8_singleton :
    (∀ s : MainState, s.pythonProcess.isSome = true →
        step s MainEvent.startMonitoring = s) ∧
    ∀ es : List MainEvent, (runMain es).liveMonitors.length ≤ 1 := by
  constructor
  · intro s h
    simp [step, h]
  · intro es
    exact (runMain_inv es).1

/-- C8 witness: the no-op at a state with an active monitor session, and
the singleton bound on a history that tries to start twice. -/
theorem c8_witness :
    ((⟨some 5, 6, [5], [(5, ProcKind.monitor)]⟩ : MainState).pythonProcess.isSome
        = true) ∧
    step (⟨some 5, 6, [5], [(5, ProcKind.monitor)]⟩ : MainState)
        MainEvent.startMonitoring
      = ⟨some 5, 6, [5], [(5, ProcKind.monitor)]⟩ ∧
    (runMain [MainEvent.startMonitoring, MainEvent.getChargerData,
        MainEvent.startMonitoring]).liveMonitors.length ≤ 1 :=
  ⟨rfl, c8_singleton.1 ⟨some 5, 6, [5], [(5, ProcKind.monitor)]⟩ rfl,
   c8_singleton.2 [MainEvent.startMonitoring, MainEvent.getChargerData,
     MainEvent.startMonitoring]⟩

/-- C9 (counterexample): the claim that any status string outside the
known set resolves to the unknown category is false on the code.
"Constructor" normalises to "constructor", which is not a known status,
yet `statusIcons["constructor"]` is the truthy inherited
`Object.prototype.constructor`, so the `|| statusIcons['unknown']`
fallback never runs and the status does not resolve to the unknown
category. -/
theorem c9_counterexample :
    jsTrim (jsToLower "Constructor")
        ∉ ["available", "charging", "preparing", "suspendedev"] ∧
    statusIconFor "Constructor" = StatusLookup.inherited "constructor" ∧
    statusIconFor "Constructor" ≠ StatusLookup.info unknownIcon :=
  ⟨by decide, by decide, by decide⟩

/-- C9 (amended): the caller-visible status category is determined by
lower-casing and trimming the status string before lookup; a normalised
status outside the known set resolves to the unknown category unless it
equals one of the two all-lower-case Object.prototype property names
("constructor", "__proto__"), whose truthy inherited values bypass the
unknown fallback; "Faulted" maps to unknown and "Charging" maps to
charging. -/
theorem c9_amended :
    (∀ a b : String, jsTrim (jsToLower a) = jsTrim (jsToLower b) →
        statusIconFor a = statusIconFor b) ∧
    (∀ s1 : String,
        jsTrim (jsToLower s1)
            ∉ ["available", "charging", "preparing", "suspendedev"] →
        jsTrim (jsToLower s1) ∉ lowerCaseProtoProps →
        statusIconFor s1 = StatusLookup.info unknownIcon) ∧
    (∀ s1 : String, jsTrim (jsToLower s1) ∈ lowerCaseProtoProps →
        statusIconFor s1 = StatusLookup.inherited (jsTrim (jsToLower s1))) ∧
    statusIconFor "Faulted" = StatusLookup.info unknownIcon ∧
    statusIconFor "Charging" = StatusLookup.info chargingIcon := by
  refine ⟨?_, ?_, ?_, rfl, rfl⟩
  · intro a b h
    unfold statusIconFor
    rw [h]
  · intro s1 h hp
    simp only [List.mem_cons, List.not_mem_nil, or_false, not_or] at h
    obtain ⟨h1, h2, h3, h4⟩ := h
    simp only [lowerCaseProtoProps, List.mem_cons, List.not_mem_nil,
      or_false, not_or] at hp
    obtain ⟨hp1, hp2⟩ := hp
    unfold statusIconFor statusBracketLookup
    by_cases hu : jsTrim (jsToLower s1) = "unknown"
    · simp [statusIcons, List.find?, hu, Ne.symm h1, Ne.symm h2, Ne.symm h3,
        Ne.symm h4]
    · simp [statusIcons, List.find?, lowerCaseProtoProps, Ne.symm h1,
        Ne.symm h2, Ne.symm h3, Ne.symm h4, Ne.symm hu, hp1, hp2]
  · intro s1 hp
    simp only [lowerCaseProtoProps, List.mem_cons, List.not_mem_nil,
      or_false] at hp
    unfold statusIconFor statusBracketLookup
    rcases hp with hc | hc <;>
      simp [statusIcons, List.find?, lowerCaseProtoProps, hc]

/-- C9 witness: "Faulted" resolves to unknown; a padded upper-case
"CHARGING" classifies like "Charging"; "__PROTO__" normalises onto the
inherited prototype property. -/
theorem c9_witness :
    (jsTrim (jsToLower "Faulted")
        ∉ ["available", "charging", "preparing", "suspendedev"]) ∧
    (jsTrim (jsToLower "Faulted") ∉ lowerCaseProtoProps) ∧
    statusIconFor "Faulted" = StatusLookup.info unknownIcon ∧
    jsTrim (jsToLower "  CHARGING ") = jsTrim (jsToLower "Charging") ∧
    statusIconFor "  CHARGING " = statusIconFor "Charging" ∧
    (jsTrim (jsToLower " __PROTO__ ") ∈ lowerCaseProtoProps) ∧
    statusIconFor " __PROTO__ "
        = StatusLookup.inherited (jsTrim (jsToLower " __PROTO__ ")) :=
  ⟨by decide, by decide,
   c9_amended.2.1 "Faulted" (by decide) (by decide),
   by decide,
   c9_amended.1 "  CHARGING " "Charging" (by decide),
   by decide,
   c9_amended.2.2.1 " __PROTO__ " (by decide)⟩

/-- C10 (confirmed): the one-shot close handler performs no schema
validation — whenever stdout decodes as any JSON value at all (null, a
bare number, an object without the SnapshotResult fields), the promise is
resolved with exactly that parsed value. -/
theorem c10_no_schema_validation (data errorData : String) (v : Json)
    (h : jsonParse data = some v) :
    closeHandler 0 data errorData = .resolve v := by
  simp [closeHandler, h]

/-- C10 witness: stdout "null", "42" and an object lacking `success` and
`devices` all resolve as-is. -/
theorem c10_witness :
    jsonParse "null" = some Json.null ∧
    closeHandler 0 "null" "" = .resolve Json.null ∧
    jsonParse "42" = some (Json.num 42 0) ∧
    closeHandler 0 "42" "" = .resolve (Json.num 42 0) ∧
    jsonParse "\x7b\"foo\":true\x7d" = some (Json.obj [("foo", Json.bool true)]) ∧
    closeHandler 0 "\x7b\"foo\":true\x7d" ""
        = .resolve (Json.obj [("foo", Json.bool true)]) :=
  ⟨rfl, c10_no_schema_validation "null" "" Json.null rfl,
   rfl, c10_no_schema_validation "42" "" (Json.num 42 0) rfl,
   rfl, c10_no_schema_validation "\x7b\"foo\":true\x7d" ""
     (Json.obj [("foo", Json.bool true)]) rfl⟩

end ChargerBridge
